import Mathlib

/-
Verification of the daily quote generation / publication pipeline of the
shrutam backend.  The two service modules (quoteService.ts and aiService.ts)
are shallowly embedded: pure computations become Lean functions, the external
store and the completion capability become explicit environment records whose
fields hold the outcome of each external call, and thrown JavaScript errors
become an Except result.  All definitions are executable.
-/

namespace Shrutam

/-! ## String helpers modelling the JavaScript primitives used by the source -/

/-- Whitespace test modelling the character class the JavaScript regexes and
String.prototype.trim act on, restricted to the ASCII whitespace that can
occur in the data handled by the service. -/
def isJsWs (c : Char) : Bool := c = ' ' || c = '\t' || c = '\n' || c = '\r'

/-- Model of String.prototype.toLowerCase (ASCII case folding). -/
def jsToLower (s : String) : String := String.mk (s.toList.map Char.toLower)

/-- Character-list version of trimming: drop leading and trailing whitespace. -/
def trimChars (l : List Char) : List Char :=
  ((l.dropWhile isJsWs).reverse.dropWhile isJsWs).reverse

/-- Model of String.prototype.trim. -/
def jsTrim (s : String) : String := String.mk (trimChars s.toList)

/-- Does the first list occur at the head of the second one? -/
def listStartsWith : List Char → List Char → Bool
  | [], _ => true
  | _ :: _, [] => false
  | p :: ps, c :: cs => p == c && listStartsWith ps cs

/-- Does pat occur as a contiguous run somewhere inside the second list? -/
def occursIn (pat : List Char) : List Char → Bool
  | [] => pat.isEmpty
  | c :: rest => listStartsWith pat (c :: rest) || occursIn pat rest

/-- Model of String.prototype.includes: pat occurs inside s. -/
def jsIncludes (s pat : String) : Bool := occursIn pat.toList s.toList

theorem dropWhile_dropWhile (p : Char → Bool) (l : List Char) :
    (l.dropWhile p).dropWhile p = l.dropWhile p := by
  induction l with
  | nil => rfl
  | cons c t ih =>
    by_cases h : p c
    · simpa [List.dropWhile, h] using ih
    · simp [List.dropWhile, h]

theorem dropWhile_head_not (p : Char → Bool) (l : List Char) :
    l.dropWhile p = [] ∨ ∃ c t, l.dropWhile p = c :: t ∧ p c = false := by
  induction l with
  | nil => exact Or.inl rfl
  | cons c t ih =>
    by_cases h : p c
    · simpa [List.dropWhile, h] using ih
    · exact Or.inr ⟨c, t, by simp [List.dropWhile, h], by simpa using h⟩

theorem dropWhile_suffix_of (p : Char → Bool) (l : List Char) :
    ∃ t, l = t ++ l.dropWhile p := by
  induction l with
  | nil => exact ⟨[], rfl⟩
  | cons c t ih =>
    by_cases h : p c
    · obtain ⟨u, hu⟩ := ih
      exact ⟨c :: u, by simp [List.dropWhile, h, ← hu]⟩
    · exact ⟨[], by simp [List.dropWhile, h]⟩

theorem dropWhile_eq_self_of_prefix_aux (p : Char → Bool) (a b : List Char)
    (hb : b.dropWhile p = b) (hpre : ∃ t, b = a ++ t) :
    a.dropWhile p = a := by
  obtain ⟨t, ht⟩ := hpre
  cases a with
  | nil => rfl
  | cons c u =>
    have hc : p c = false := by
      rcases dropWhile_head_not p b with h0 | ⟨d, v, hdv, hd⟩
      · rw [hb] at h0; simp [ht] at h0
      · rw [hb] at hdv
        have : c = d := by
          have := congrArg (fun l => List.head? l) hdv
          simpa [ht] using this
        rw [this]; exact hd
    simp [List.dropWhile, hc]

theorem trimChars_idem (l : List Char) : trimChars (trimChars l) = trimChars l := by
  unfold trimChars
  set A := l.dropWhile isJsWs with hA
  have hAdrop : A.dropWhile isJsWs = A := by
    rw [hA]; exact dropWhile_dropWhile isJsWs l
  set B := A.reverse.dropWhile isJsWs with hB
  -- the trimmed list is B.reverse; it is a prefix of A
  have hpre : ∃ t, A = B.reverse ++ t := by
    obtain ⟨t, ht⟩ := dropWhile_suffix_of isJsWs A.reverse
    refine ⟨t.reverse, ?_⟩
    have := congrArg List.reverse ht
    simpa [hB] using this
  have h1 : B.reverse.dropWhile isJsWs = B.reverse :=
    dropWhile_eq_self_of_prefix_aux isJsWs B.reverse A hAdrop hpre
  have h2 : B.dropWhile isJsWs = B := by rw [hB]; exact dropWhile_dropWhile isJsWs A.reverse
  rw [h1]
  simp [h2]

theorem jsTrim_idem (s : String) : jsTrim (jsTrim s) = jsTrim s := by
  unfold jsTrim
  congr 1
  have : (String.mk (trimChars s.toList)).toList = trimChars s.toList := rfl
  rw [this, trimChars_idem]

/-! ## Data shared by the AI service -/

/-- Record produced by the generator (AIGeneratedQuote in types/index.ts):
four mandatory text fields plus an optional category tag. -/
structure AIGeneratedQuote where
  shlok : String
  meaning_hindi : String
  meaning_english : String
  source : String
  category : Option String
deriving DecidableEq

/-- The fixed category enumeration QUOTE_CATEGORIES of aiService.ts. -/
def QUOTE_CATEGORIES : List String :=
  ["karma", "peace", "wisdom", "devotion", "yoga", "truth", "dharma", "meditation"]

/-! ## Uniqueness checker -/

/-- Embedding of checkQuoteUniqueness of aiService.ts.  The history fetch is
modelled by an Option: none stands for a failed store query, for which
getRecentlyUsedQuotes returns the empty list, so the check degrades to true. -/
def checkQuoteUniqueness (shlok : String) (fetch : Option (List String)) : Bool :=
  let recentQuotes := fetch.getD []
  !(recentQuotes.any fun quote =>
      (jsTrim (jsToLower quote) == jsTrim (jsToLower shlok)) ||
      jsIncludes (jsToLower quote) (jsToLower shlok) ||
      jsIncludes (jsToLower shlok) (jsToLower quote))

/-- C6: the uniqueness check reports non-uniqueness exactly when the candidate
is, case-insensitively, a substring of a sample entry, or a sample entry is a
substring of the candidate, or trimmed-lowercased equality holds; on a failed
history fetch it reports unique; and the concrete spec scenario with history
entry abc and candidate abcd reports non-unique. -/
theorem C6_uniqueness_semantics (candidate : String) (sample : List String) :
    (checkQuoteUniqueness candidate (some sample) = false ↔
      ∃ q ∈ sample,
        jsIncludes (jsToLower q) (jsToLower candidate) = true ∨
        jsIncludes (jsToLower candidate) (jsToLower q) = true ∨
        jsTrim (jsToLower q) = jsTrim (jsToLower candidate)) ∧
    checkQuoteUniqueness candidate none = true ∧
    checkQuoteUniqueness "abcd" (some ["abc"]) = false := by
  refine ⟨?_, rfl, by decide⟩
  simp only [checkQuoteUniqueness, Option.getD_some, Bool.not_eq_false',
    List.any_eq_true, Bool.or_eq_true, beq_iff_eq]
  constructor
  · rintro ⟨q, hq, h⟩
    exact ⟨q, hq, by tauto⟩
  · rintro ⟨q, hq, h⟩
    exact ⟨q, hq, by tauto⟩

/-! ## Model of the JSON.parse builtin

parseAIResponse calls the JavaScript builtin JSON.parse.  The builtin is
modelled here for the flat string-valued objects of the response contract
(the prompt demands exactly that shape); primitive values (numbers, booleans,
null) are consumed and collapsed to jother / jnull, whose only observable
role downstream is to send the parser to the text-format fallback. -/

inductive JVal where
  | jstr (s : String)
  | jnull
  | jother
deriving DecidableEq

def skipWs (l : List Char) : List Char := l.dropWhile isJsWs

def escChar (c : Char) : Option Char :=
  if c = '"' then some '"'
  else if c = '\\' then some '\\'
  else if c = '/' then some '/'
  else if c = 'n' then some '\n'
  else if c = 't' then some '\t'
  else if c = 'r' then some '\r'
  else if c = 'b' then some (Char.ofNat 8)
  else if c = 'f' then some (Char.ofNat 12)
  else none

def parseJStringAux (fuel : Nat) (acc : List Char) (l : List Char) :
    Option (String × List Char) :=
  match fuel, l with
  | 0, _ => none
  | _, [] => none
  | Nat.succ fuel, c :: rest =>
    if c = '"' then some (String.mk acc.reverse, rest)
    else if c = '\\' then
      match rest with
      | [] => none
      | e :: rest2 =>
        match escChar e with
        | some d => parseJStringAux fuel (d :: acc) rest2
        | none => none
    else if c.toNat < 32 then none
    else parseJStringAux fuel (c :: acc) rest

def parseJString (l : List Char) : Option (String × List Char) :=
  match l with
  | '"' :: rest => parseJStringAux (rest.length + 1) [] rest
  | _ => none

def digitSpan (l : List Char) : List Char × List Char :=
  (l.takeWhile Char.isDigit, l.dropWhile Char.isDigit)

def parseJNumber (l : List Char) : Option (List Char) :=
  let l1 := if l.head? = some '-' then l.drop 1 else l
  let (d, r) := digitSpan l1
  if d.isEmpty then none
  else
    let r2 :=
      if r.head? = some '.' then
        let (d2, rr) := digitSpan (r.drop 1)
        if d2.isEmpty then none else some rr
      else some r
    match r2 with
    | none => none
    | some r3 =>
      if r3.head? = some 'e' || r3.head? = some 'E' then
        let r4 := if (r3.drop 1).head? = some '+' || (r3.drop 1).head? = some '-'
                  then r3.drop 2 else r3.drop 1
        let (d3, rr) := digitSpan r4
        if d3.isEmpty then none else some rr
      else some r3

def parseJValue (l : List Char) : Option (JVal × List Char) :=
  match l with
  | '"' :: _ => (parseJString l).map fun p => (JVal.jstr p.1, p.2)
  | _ =>
    if listStartsWith "null".toList l then some (JVal.jnull, l.drop 4)
    else if listStartsWith "true".toList l then some (JVal.jother, l.drop 4)
    else if listStartsWith "false".toList l then some (JVal.jother, l.drop 5)
    else (parseJNumber l).map fun r => (JVal.jother, r)

def parseObjAux : Nat → List Char → List (String × JVal) →
    Option (List (String × JVal) × List Char)
  | 0, _, _ => none
  | Nat.succ fuel, l, acc =>
    match parseJString l with
    | none => none
    | some (k, r1) =>
      match skipWs r1 with
      | ':' :: r3 =>
        match parseJValue (skipWs r3) with
        | none => none
        | some (v, r4) =>
          match skipWs r4 with
          | ',' :: r5 => parseObjAux fuel (skipWs r5) (acc ++ [(k, v)])
          | '\x7d' :: r5 => some (acc ++ [(k, v)], r5)
          | _ => none
      | _ => none

/-- Model of JSON.parse for the flat string-valued object contract: parses
the whole input string (surrounding whitespace allowed) as one object. -/
def jsonParseFlatObject (s : String) : Option (List (String × JVal)) :=
  match skipWs s.toList with
  | '\x7b' :: r =>
    match skipWs r with
    | '\x7d' :: r2 => if (skipWs r2).isEmpty then some [] else none
    | r2 =>
      match parseObjAux (r2.length + 1) r2 [] with
      | some (obj, rest) => if (skipWs rest).isEmpty then some obj else none
      | none => none
  | _ => none

/-- JavaScript property lookup on a parsed object: duplicate keys keep the
last occurrence, as JSON.parse does. -/
def jlookup (obj : List (String × JVal)) (k : String) : Option JVal :=
  (obj.reverse.find? (fun p => p.1 == k)).map (fun p => p.2)

/-! ## parseAIResponse and parseTextFormatResponse (aiService.ts) -/

/-- A mandatory field read: the truthiness test of the source rejects a
missing field and the empty string; a null or non-string value also diverts
to the text-format fallback (null is falsy, and a non-string truthy value
makes the subsequent .trim() call raise inside the same try block). -/
def getMandatory (obj : List (String × JVal)) (k : String) : Option String :=
  match jlookup obj k with
  | some (JVal.jstr s) => if s = "" then none else some s
  | _ => none

/-- The optional category read: absent or null yields no category via the
optional-chaining operator; a non-string value makes .trim() raise, which
abandons the JSON path. -/
def categoryField (obj : List (String × JVal)) : Option (Option String) :=
  match jlookup obj "category" with
  | none => some none
  | some JVal.jnull => some none
  | some (JVal.jstr s) => some (some (jsTrim s))
  | some JVal.jother => none

def mandatoryFieldsOk (obj : List (String × JVal)) : Bool :=
  (getMandatory obj "shlok").isSome && (getMandatory obj "meaning_hindi").isSome &&
  (getMandatory obj "meaning_english").isSome && (getMandatory obj "source").isSome

/-- Validation and trimming step of the JSON branch of parseAIResponse. -/
def buildFromJson (obj : List (String × JVal)) : Option AIGeneratedQuote :=
  (getMandatory obj "shlok").bind fun sh =>
  (getMandatory obj "meaning_hindi").bind fun mh =>
  (getMandatory obj "meaning_english").bind fun me =>
  (getMandatory obj "source").bind fun so =>
  (categoryField obj).map fun cat =>
    ⟨jsTrim sh, jsTrim mh, jsTrim me, jsTrim so, cat⟩

/-- The regex match of parseAIResponse extracting a structured block from
surrounding prose: from the first opening brace to the last closing brace,
provided the latter comes after the former. -/
def extractJsonBlock (s : String) : Option String :=
  let cs := s.toList
  let rest := cs.dropWhile (fun c => c != '\x7b')
  match rest with
  | [] => none
  | _ :: _ =>
    let revAfter := rest.reverse.dropWhile (fun c => c != '\x7d')
    match revAfter with
    | [] => none
    | _ :: _ => some (String.mk revAfter.reverse)

/-- The whole JSON branch of parseAIResponse: trim the response, extract the
structured block if one exists, parse it, validate and trim the fields. -/
def extractedObject (response : String) : Option (List (String × JVal)) :=
  let t := jsTrim response
  jsonParseFlatObject ((extractJsonBlock t).getD t)

def parseJsonPath (response : String) : Option AIGeneratedQuote :=
  (extractedObject response).bind buildFromJson

/-- Model of the capture of the regexes of parseTextFormatResponse, of the
shape label followed by optional whitespace and a non-empty run of
non-newline characters.  After the first occurrence of the label, the greedy
whitespace run is skipped and the rest of that line is captured; when only
whitespace follows the label, backtracking can still capture a trailing
non-newline whitespace character, which trims to the empty string. -/
def tailAfter (pat : List Char) : List Char → Option (List Char)
  | [] => if pat.isEmpty then some [] else none
  | c :: rest =>
    if listStartsWith pat (c :: rest) then some ((c :: rest).drop pat.length)
    else tailAfter pat rest

def matchLabelValue (label response : String) : Option String :=
  (tailAfter label.toList response.toList).bind fun t =>
    match t.dropWhile isJsWs with
    | [] => ((t.filter (fun c => c != '\n')).getLast?).map fun c => String.mk [c]
    | c :: rest => some (String.mk ((c :: rest).takeWhile (fun d => d != '\n')))

/-- One mandatory text-format field: trimmed capture, or the empty string. -/
def textField (label response : String) : String :=
  ((matchLabelValue label response).map jsTrim).getD ""

/-- The source field of the text format defaults to Unknown Scripture both
when the label is missing and when its trimmed capture is empty. -/
def textSource (response : String) : String :=
  match (matchLabelValue "Source:" response).map jsTrim with
  | some v => if v = "" then "Unknown Scripture" else v
  | none => "Unknown Scripture"

/-- Embedding of parseTextFormatResponse of aiService.ts. -/
def parseTextFormatResponse (response : String) : Except String AIGeneratedQuote :=
  let shlok := textField "Shlok:" response
  let meaning_hindi := textField "Meaning Hindi:" response
  let meaning_english := textField "Meaning English:" response
  let source := textSource response
  let category := (matchLabelValue "Category:" response).map jsTrim
  if shlok = "" || meaning_hindi = "" || meaning_english = "" || source = "" then
    Except.error "Invalid text format response"
  else Except.ok ⟨shlok, meaning_hindi, meaning_english, source, category⟩

/-- Embedding of parseAIResponse of aiService.ts: the structured (JSON) form
is attempted first; any failure there (no parsable block, missing or falsy
mandatory field, or a non-string field making .trim() raise) falls back to
the text-format parser; if that also fails the combined failure is raised. -/
def parseAIResponse (response : String) : Except String AIGeneratedQuote :=
  match parseJsonPath response with
  | some q => Except.ok q
  | none =>
    match parseTextFormatResponse response with
    | Except.ok q => Except.ok q
    | Except.error _ => Except.error "Failed to parse AI response as JSON or text format"

/-- All five fields of a record are fixed points of trimming. -/
def trimmedQuote (q : AIGeneratedQuote) : Prop :=
  jsTrim q.shlok = q.shlok ∧ jsTrim q.meaning_hindi = q.meaning_hindi ∧
  jsTrim q.meaning_english = q.meaning_english ∧ jsTrim q.source = q.source ∧
  ∀ c, q.category = some c → jsTrim c = c

theorem categoryField_trim (obj : List (String × JVal)) (cat : Option String)
    (h : categoryField obj = some cat) : ∀ c, cat = some c → jsTrim c = c := by
  intro c hc
  unfold categoryField at h
  split at h
  · simp at h; simp [← h] at hc
  · simp at h; simp [← h] at hc
  · simp at h
    rw [← h] at hc
    simp at hc
    rw [← hc]
    exact jsTrim_idem _
  · cases h

theorem textField_trim_fix (label response : String) :
    jsTrim (textField label response) = textField label response := by
  unfold textField
  cases h : matchLabelValue label response with
  | none => decide
  | some v => simp [jsTrim_idem]

theorem textSource_trim_fix (response : String) :
    jsTrim (textSource response) = textSource response := by
  unfold textSource
  cases h : matchLabelValue "Source:" response with
  | none => decide
  | some v =>
    simp only [Option.map_some']
    split
    · decide
    · exact jsTrim_idem _

/-- C8: the parser tries the structured form first and only then scans for
labelled lines; a structured block whose mandatory fields are not all
non-empty strings is rejected; every field of a successfully parsed record
is trimmed and, for the text format, non-empty; and the legacy plain-text
scenario from the spec parses to the expected record with no category. -/
theorem C8_response_parsing :
    (parseAIResponse "Shlok: X\nMeaning Hindi: Y\nMeaning English: Z\nSource: S" =
       Except.ok ⟨"X", "Y", "Z", "S", none⟩) ∧
    (∀ s, parseAIResponse s =
       match parseJsonPath s with
       | some q => Except.ok q
       | none =>
         match parseTextFormatResponse s with
         | Except.ok q => Except.ok q
         | Except.error _ =>
             Except.error "Failed to parse AI response as JSON or text format") ∧
    (∀ s q, parseJsonPath s = some q → trimmedQuote q) ∧
    (∀ s q, parseTextFormatResponse s = Except.ok q →
       q.shlok ≠ "" ∧ q.meaning_hindi ≠ "" ∧ q.meaning_english ≠ "" ∧
       q.source ≠ "" ∧ trimmedQuote q) ∧
    (∀ obj, mandatoryFieldsOk obj = false → buildFromJson obj = none) := by
  refine ⟨by rfl, fun s => rfl, ?_, ?_, ?_⟩
  · intro s q h
    unfold parseJsonPath at h
    obtain ⟨obj, hobj, hb⟩ := Option.bind_eq_some.mp h
    unfold buildFromJson at hb
    obtain ⟨sh, hsh, hb⟩ := Option.bind_eq_some.mp hb
    obtain ⟨mh, hmh, hb⟩ := Option.bind_eq_some.mp hb
    obtain ⟨me, hme, hb⟩ := Option.bind_eq_some.mp hb
    obtain ⟨so, hso, hb⟩ := Option.bind_eq_some.mp hb
    obtain ⟨cat, hcat, hb⟩ := Option.map_eq_some'.mp hb
    rw [← hb]
    exact ⟨jsTrim_idem _, jsTrim_idem _, jsTrim_idem _, jsTrim_idem _,
      categoryField_trim obj cat hcat⟩
  · intro s q h
    unfold parseTextFormatResponse at h
    dsimp only at h
    split at h
    · cases h
    · rename_i hguard
      simp only [Bool.or_eq_true, decide_eq_true_eq, not_or] at hguard
      obtain ⟨⟨⟨h1, h2⟩, h3⟩, h4⟩ := hguard
      cases h
      refine ⟨h1, h2, h3, h4, textField_trim_fix _ _, textField_trim_fix _ _,
        textField_trim_fix _ _, textSource_trim_fix _, ?_⟩
      intro c hc
      simp only at hc
      obtain ⟨v, hv, hc⟩ := Option.map_eq_some'.mp hc
      rw [← hc]
      exact jsTrim_idem _
  · intro obj h
    unfold mandatoryFieldsOk at h
    unfold buildFromJson
    cases h1 : getMandatory obj "shlok" <;>
      cases h2 : getMandatory obj "meaning_hindi" <;>
        cases h3 : getMandatory obj "meaning_english" <;>
          cases h4 : getMandatory obj "source" <;>
            simp_all

/-- A concrete structured response exercising the JSON branch. -/
def jsonSample : String :=
  "\x7b \"shlok\": \" a1 \", \"meaning_hindi\": \"b\", \"meaning_english\": \"c\", \"source\": \"d\", \"category\": \"karma \" \x7d"

theorem C8_response_parsing_witness :
    trimmedQuote ⟨"a1", "b", "c", "d", some "karma"⟩ ∧
    ("X" ≠ "" ∧ "Y" ≠ "" ∧ "Z" ≠ "" ∧ "S" ≠ "" ∧
      trimmedQuote ⟨"X", "Y", "Z", "S", none⟩) ∧
    buildFromJson [] = none :=
  ⟨C8_response_parsing.2.2.1 jsonSample ⟨"a1", "b", "c", "d", some "karma"⟩ (by rfl),
   C8_response_parsing.2.2.2.1
     "Shlok: X\nMeaning Hindi: Y\nMeaning English: Z\nSource: S"
     ⟨"X", "Y", "Z", "S", none⟩ (by rfl),
   C8_response_parsing.2.2.2.2 [] (by rfl)⟩

/-! ## Category balancer (aiService.ts) -/

/-- Category counts computed by getQuoteUsageStats over the fetched rows
(the optional category of each recent publication).  A failed fetch is
swallowed inside getQuoteUsageStats and yields the empty statistics object,
i.e. every count is zero. -/
def categoryCountsOf (fetch : Option (List (Option String))) (c : String) : Nat :=
  ((fetch.getD []).filter (fun o => o == some c)).length

/-- Embedding of getRandomCategory: a uniform index into the fixed category
list, the random draw modelled by a natural number. -/
def getRandomCategory (r : Nat) : String :=
  QUOTE_CATEGORIES.getD (r % QUOTE_CATEGORIES.length) ""

/-- The forEach loop of getLeastUsedCategory: keep the current best category
and its count, replacing them only on a strictly smaller count. -/
def leastUsedAux (counts : String → Nat) : List String → String → Nat → String × Nat
  | [], b, m => (b, m)
  | c :: rest, b, m =>
    if counts c < m then leastUsedAux counts rest c (counts c)
    else leastUsedAux counts rest b m

/-- Embedding of getLeastUsedCategory of aiService.ts.  The catch branch
returning getRandomCategory is unreachable in the source: getQuoteUsageStats
catches its own failures and returns empty statistics, so a failed fetch
flows through the loop with all-zero counts and the first category wins. -/
def getLeastUsedCategory (fetch : Option (List (Option String))) : String :=
  (leastUsedAux (categoryCountsOf fetch) QUOTE_CATEGORIES "karma"
    (categoryCountsOf fetch "karma")).1

theorem leastUsedAux_snd (counts : String → Nat) (cats : List String) :
    ∀ b m, m = counts b →
      (leastUsedAux counts cats b m).2 = counts (leastUsedAux counts cats b m).1 := by
  induction cats with
  | nil =>
    intro b m h
    simpa [leastUsedAux] using h
  | cons c rest ih =>
    intro b m h
    by_cases hc : counts c < m
    · simp only [leastUsedAux, if_pos hc]
      exact ih c (counts c) rfl
    · simp only [leastUsedAux, if_neg hc]
      exact ih b m h

theorem leastUsedAux_min (counts : String → Nat) (cats : List String) :
    ∀ b m, (leastUsedAux counts cats b m).2 ≤ m ∧
      ∀ c ∈ cats, (leastUsedAux counts cats b m).2 ≤ counts c := by
  induction cats with
  | nil =>
    intro b m
    exact ⟨le_refl m, by simp⟩
  | cons c rest ih =>
    intro b m
    by_cases hc : counts c < m
    · simp only [leastUsedAux, if_pos hc]
      obtain ⟨h1, h2⟩ := ih c (counts c)
      refine ⟨le_trans h1 (le_of_lt hc), ?_⟩
      intro x hx
      rcases List.mem_cons.mp hx with hx | hx
      · rw [hx]; exact h1
      · exact h2 x hx
    · simp only [leastUsedAux, if_neg hc]
      obtain ⟨h1, h2⟩ := ih b m
      refine ⟨h1, ?_⟩
      intro x hx
      rcases List.mem_cons.mp hx with hx | hx
      · rw [hx]; exact le_trans h1 (Nat.le_of_not_lt hc)
      · exact h2 x hx

theorem leastUsedAux_first (counts : String → Nat) (cats : List String) :
    ∀ b m, m = counts b →
      (leastUsedAux counts cats b m).1 = b ∨
      ∃ p s, cats = p ++ (leastUsedAux counts cats b m).1 :: s ∧
        counts (leastUsedAux counts cats b m).1 < counts b ∧
        ∀ c ∈ p, counts (leastUsedAux counts cats b m).1 < counts c := by
  induction cats with
  | nil =>
    intro b m _
    exact Or.inl rfl
  | cons c rest ih =>
    intro b m h
    by_cases hc : counts c < m
    · simp only [leastUsedAux, if_pos hc]
      rcases ih c (counts c) rfl with h0 | ⟨p, s, hps, hlt, hall⟩
      · refine Or.inr ⟨[], rest, ?_, ?_, by simp⟩
        · rw [h0]; rfl
        · rw [h0]; rw [h] at hc; exact hc
      · refine Or.inr ⟨c :: p, s,
          by rw [List.cons_append]; exact congrArg (List.cons c) hps,
          lt_trans hlt (h ▸ hc), ?_⟩
        intro x hx
        rcases List.mem_cons.mp hx with hx | hx
        · rw [hx]; exact hlt
        · exact hall x hx
    · simp only [leastUsedAux, if_neg hc]
      rcases ih b m h with h0 | ⟨p, s, hps, hlt, hall⟩
      · exact Or.inl h0
      · refine Or.inr ⟨c :: p, s,
          by rw [List.cons_append]; exact congrArg (List.cons c) hps, hlt, ?_⟩
        intro x hx
        rcases List.mem_cons.mp hx with hx | hx
        · rw [hx]
          exact lt_of_lt_of_le hlt (h ▸ Nat.le_of_not_lt hc)
        · exact hall x hx

/-- C7 counterexample: on a failed history fetch the balancer is
deterministic.  getQuoteUsageStats converts fetch failures into empty
statistics instead of raising, so the random-category catch branch of
getLeastUsedCategory never runs; with all-zero counts the loop keeps the
first category karma.  A uniformly random selection (modelled by
getRandomCategory, here drawing index 1, i.e. peace) can therefore not be
the failure behavior: the result never varies. -/
theorem C7_random_fallback_cex :
    getLeastUsedCategory none = "karma" ∧
    getLeastUsedCategory none ≠ getRandomCategory 1 := by
  constructor <;> decide

/-- C7 amended: the balancer returns the category with the minimum count
over the fetched rows, ties broken in favor of the category appearing first
in the canonical enumeration (every earlier category has a strictly larger
count); on a failed history fetch it deterministically returns the first
category of the enumeration, karma, because the empty statistics give every
category a zero count (the random fallback in the source is unreachable). -/
theorem C7_least_used_category_amended (fetch : Option (List (Option String))) :
    (∃ p s, QUOTE_CATEGORIES = p ++ getLeastUsedCategory fetch :: s ∧
       (∀ c ∈ p, categoryCountsOf fetch (getLeastUsedCategory fetch) <
          categoryCountsOf fetch c) ∧
       (∀ c ∈ QUOTE_CATEGORIES, categoryCountsOf fetch (getLeastUsedCategory fetch) ≤
          categoryCountsOf fetch c)) ∧
    getLeastUsedCategory none = "karma" := by
  constructor
  · have hsnd := leastUsedAux_snd (categoryCountsOf fetch) QUOTE_CATEGORIES "karma"
      (categoryCountsOf fetch "karma") rfl
    have hmin := leastUsedAux_min (categoryCountsOf fetch) QUOTE_CATEGORIES "karma"
      (categoryCountsOf fetch "karma")
    have hfirst := leastUsedAux_first (categoryCountsOf fetch) QUOTE_CATEGORIES "karma"
      (categoryCountsOf fetch "karma") rfl
    have hminAll : ∀ c ∈ QUOTE_CATEGORIES,
        categoryCountsOf fetch (getLeastUsedCategory fetch) ≤ categoryCountsOf fetch c := by
      intro c hc
      have := hmin.2 c hc
      rw [hsnd] at this
      exact this
    rcases hfirst with h0 | ⟨p, s, hps, _, hall⟩
    · refine ⟨[], ["peace", "wisdom", "devotion", "yoga", "truth", "dharma", "meditation"],
        ?_, by simp, hminAll⟩
      unfold getLeastUsedCategory
      rw [h0]
      rfl
    · exact ⟨p, s, hps, hall, hminAll⟩
  · decide

/-! ## Static fallback table and getFallbackQuote (aiService.ts) -/

/-- The 24-entry curated fallback table of getFallbackQuote, transcribed
from aiService.ts. -/
def fallbackQuotes : List AIGeneratedQuote := [
  ⟨"कर्मण्येवाधिकारस्ते मा फलेषु कदाचन",
   "तुम्हारा अधिकार केवल कर्म करने में है, फल में नहीं।",
   "You have the right to perform your actions, but never to the fruits of those actions.",
   "Bhagavad Gita", some "karma"⟩,
  ⟨"कर्म ज्यायो ह्यकर्मणः",
   "कर्म न करने से कर्म करना बेहतर है।",
   "Action is superior to inaction.",
   "Bhagavad Gita", some "karma"⟩,
  ⟨"यत्कर्म कृत्वा पुनर्न तत्करोति सः",
   "जो कर्म करके फिर नहीं करता वही सच्चा कर्मी है।",
   "He who performs action without attachment to results is the true doer.",
   "Bhagavad Gita", some "karma"⟩,
  ⟨"योग: कर्मसु कौशलम्",
   "योग कर्मों में कुशलता है।",
   "Yoga is skill in action and excellence in work.",
   "Bhagavad Gita", some "yoga"⟩,
  ⟨"योग: चित्तवृत्तिनिरोधः",
   "योग चित्त की वृत्तियों का निरोध है।",
   "Yoga is the restraint of the modifications of the mind.",
   "Yoga Sutras", some "yoga"⟩,
  ⟨"समत्वं योग उच्यते",
   "समता को योग कहते हैं।",
   "Equanimity is called yoga.",
   "Bhagavad Gita", some "yoga"⟩,
  ⟨"सत्यमेव जयते",
   "सत्य की ही जीत होती है।",
   "Truth alone triumphs and prevails.",
   "Mundaka Upanishad", some "truth"⟩,
  ⟨"सत्यं वद धर्मं चर",
   "सत्य बोलो और धर्म का पालन करो।",
   "Speak the truth and follow dharma.",
   "Taittiriya Upanishad", some "truth"⟩,
  ⟨"सत्यं ज्ञानमनन्तं ब्रह्म",
   "सत्य, ज्ञान और अनंत ही ब्रह्म है।",
   "Truth, knowledge, and infinity is Brahman.",
   "Taittiriya Upanishad", some "truth"⟩,
  ⟨"वसुधैव कुटुम्बकम्",
   "पूरी पृथ्वी ही एक परिवार है।",
   "The whole world is one family.",
   "Mahopanishad", some "peace"⟩,
  ⟨"शान्ति: शान्ति: शान्ति:",
   "शांति, शांति, शांति।",
   "Peace, peace, peace.",
   "Upanishads", some "peace"⟩,
  ⟨"सर्वे भवन्तु सुखिनः",
   "सभी सुखी हों।",
   "May all be happy.",
   "Ancient Prayer", some "peace"⟩,
  ⟨"अहिंसा परमो धर्मः",
   "अहिंसा सबसे बड़ा धर्म है।",
   "Non-violence is the highest virtue and dharma.",
   "Mahabharata", some "dharma"⟩,
  ⟨"धर्मो रक्षति रक्षितः",
   "धर्म की रक्षा करने वाले की रक्षा धर्म करता है।",
   "Dharma protects those who protect dharma.",
   "Mahabharata", some "dharma"⟩,
  ⟨"धर्म एव हतो हन्ति धर्मो रक्षति रक्षितः",
   "धर्म का नाश करने वाले का नाश धर्म करता है, धर्म की रक्षा करने वाले की रक्षा धर्म करता है।",
   "Dharma destroys those who destroy dharma, dharma protects those who protect dharma.",
   "Mahabharata", some "dharma"⟩,
  ⟨"ज्ञानं वैराग्यं च सा विद्या",
   "ज्ञान और वैराग्य ही वास्तविक विद्या है।",
   "Knowledge and detachment together constitute true wisdom.",
   "Bhagavad Gita", some "wisdom"⟩,
  ⟨"विद्या ददाति विनयं",
   "विद्या विनय देती है।",
   "Knowledge gives humility.",
   "Ancient Wisdom", some "wisdom"⟩,
  ⟨"ज्ञानेन तु तदज्ञानं येषां नाशितमात्मनः",
   "जिनके अज्ञान का नाश आत्मा के द्वारा ज्ञान से हो गया है।",
   "Those whose ignorance has been destroyed by knowledge of the self.",
   "Bhagavad Gita", some "wisdom"⟩,
  ⟨"भक्ति योगेन तोषयामि",
   "भक्ति योग से मैं प्रसन्न होता हूं।",
   "I am pleased by the yoga of devotion.",
   "Bhagavad Gita", some "devotion"⟩,
  ⟨"मामेव ये प्रपद्यन्ते मायामेतां तरन्ति ते",
   "जो मुझे ही शरण लेते हैं, वे इस माया को पार कर जाते हैं।",
   "Those who take refuge in me alone cross over this illusion.",
   "Bhagavad Gita", some "devotion"⟩,
  ⟨"सर्वधर्मान्परित्यज्य मामेकं शरणं व्रज",
   "सभी धर्मों को त्याग कर मुझे ही एक शरण में आ जाओ।",
   "Abandoning all dharmas, take refuge in me alone.",
   "Bhagavad Gita", some "devotion"⟩,
  ⟨"ध्यानात् कर्म फल त्यागः",
   "ध्यान से कर्म फल का त्याग होता है।",
   "Through meditation, one renounces the fruits of action.",
   "Yoga Sutras", some "meditation"⟩,
  ⟨"ध्यायतो विषयान्पुंसः सङ्गस्तेषूपजायते",
   "विषयों का ध्यान करने से उनमें आसक्ति हो जाती है।",
   "By meditating on sense objects, attachment to them arises.",
   "Bhagavad Gita", some "meditation"⟩,
  ⟨"ध्यानेनात्मनि पश्यन्ति केचिदात्मानमात्मना",
   "कुछ लोग ध्यान से आत्मा को आत्मा से देखते हैं।",
   "Some see the self by the self through meditation.",
   "Bhagavad Gita", some "meditation"⟩]

/-- Environment of one invocation of the generation pipeline: outcome of the
two possible completion calls (none models a failed call or an empty
response), the three independent history fetches, the usage-statistics
fetch, and the random draw used by the fallback selection.  hasApiKey false
makes getOpenAIClient raise before any completion call. -/
structure AIEnv where
  hasApiKey : Bool
  resp1 : Option String
  resp2 : Option String
  recentU1 : Option (List String)
  recentU2 : Option (List String)
  recentF : Option (List String)
  catHist : Option (List (Option String))
  rPick : Nat

/-- Recency filter of getFallbackQuote: drop table entries whose primary
text contains or is contained in a recently used one, case-insensitively. -/
def availableQuotesOf (recentQuotes : List String) : List AIGeneratedQuote :=
  fallbackQuotes.filter fun quote =>
    !(recentQuotes.any fun recent =>
        jsIncludes (jsToLower recent) (jsToLower quote.shlok) ||
        jsIncludes (jsToLower quote.shlok) (jsToLower recent))

/-- Candidate pool of getFallbackQuote: entries of the balanced category if
any survive the recency filter, otherwise any surviving entry, otherwise the
whole table. -/
def finalQuotesOf (category : String) (recentQuotes : List String) :
    List AIGeneratedQuote :=
  let availableQuotes := availableQuotesOf recentQuotes
  let categoryQuotes := availableQuotes.filter (fun q => q.category == some category)
  let quotesToUse := if categoryQuotes.length > 0 then categoryQuotes else availableQuotes
  if quotesToUse.length > 0 then quotesToUse else fallbackQuotes

/-- Embedding of getFallbackQuote of aiService.ts: pick a pseudo-random
entry from the candidate pool and overwrite its category with the balanced
category. -/
def getFallbackQuote (env : AIEnv) : AIGeneratedQuote :=
  let category := getLeastUsedCategory env.catHist
  let finalQuotes := finalQuotesOf category (env.recentF.getD [])
  let selectedQuote := finalQuotes.getD (env.rPick % finalQuotes.length) ⟨"", "", "", "", none⟩
  { selectedQuote with category := some category }

theorem finalQuotesOf_ne_nil (category : String) (recentQuotes : List String) :
    finalQuotesOf category recentQuotes ≠ [] := by
  unfold finalQuotesOf
  dsimp only
  split
  · next h => exact List.ne_nil_of_length_pos h
  · split
    · next h => exact List.ne_nil_of_length_pos h
    · simp [fallbackQuotes]

theorem finalQuotesOf_subset (category : String) (recentQuotes : List String) :
    ∀ q ∈ finalQuotesOf category recentQuotes, q ∈ fallbackQuotes := by
  unfold finalQuotesOf
  dsimp only
  intro q hq
  split at hq
  · exact List.mem_of_mem_filter (List.mem_of_mem_filter hq)
  · split at hq
    · exact List.mem_of_mem_filter hq
    · exact hq

theorem getFallbackQuote_shape (env : AIEnv) :
    ∃ q ∈ fallbackQuotes,
      getFallbackQuote env =
        { q with category := some (getLeastUsedCategory env.catHist) } := by
  unfold getFallbackQuote
  dsimp only
  set fq := finalQuotesOf (getLeastUsedCategory env.catHist) (env.recentF.getD []) with hfq
  have hne : fq ≠ [] := by rw [hfq]; exact finalQuotesOf_ne_nil _ _
  have hlen : env.rPick % fq.length < fq.length :=
    Nat.mod_lt _ (List.length_pos.mpr hne)
  refine ⟨fq.get ⟨env.rPick % fq.length, hlen⟩, ?_, ?_⟩
  · apply finalQuotesOf_subset (getLeastUsedCategory env.catHist) (env.recentF.getD [])
    rw [← hfq]
    exact List.get_mem fq _ hlen
  · rw [List.getD_eq_getElem _ _ hlen]
    rfl

theorem fallbackQuotes_fields_ne_empty :
    ∀ q ∈ fallbackQuotes, q.shlok ≠ "" ∧ q.meaning_hindi ≠ "" ∧
      q.meaning_english ≠ "" ∧ q.source ≠ "" := by decide

/-! ## generateQuoteWithAI and its retry (aiService.ts)

The prompt-construction helpers (getQuoteGenerationPrompt and the category
and history fetches it performs) only shape the text sent to the completion
capability; since the capability's response is supplied by the environment,
they have no observable effect in the model.  The second component of the
result counts the completion calls actually made. -/

/-- Embedding of generateQuoteWithAIRetry: one more completion call with
maximal temperature; a failure anywhere, a parse failure, or a second
non-unique candidate all resolve to the fallback table. -/
def generateQuoteWithAIRetry (env : AIEnv) : AIGeneratedQuote × Nat :=
  if !env.hasApiKey then (getFallbackQuote env, 0) else
  match env.resp2 with
  | none => (getFallbackQuote env, 1)
  | some response =>
    match parseAIResponse response with
    | Except.error _ => (getFallbackQuote env, 1)
    | Except.ok parsedQuote =>
      if checkQuoteUniqueness parsedQuote.shlok env.recentU2 then (parsedQuote, 1)
      else (getFallbackQuote env, 1)

/-- Embedding of generateQuoteWithAI: one completion call; parse; check
uniqueness against the recent history; on a non-unique candidate delegate to
the single retry; any raised failure is caught and resolved to the fallback
table.  The function is total: no error escapes to the caller. -/
def generateQuoteWithAI (env : AIEnv) : AIGeneratedQuote × Nat :=
  if !env.hasApiKey then (getFallbackQuote env, 0) else
  match env.resp1 with
  | none => (getFallbackQuote env, 1)
  | some response =>
    match parseAIResponse response with
    | Except.error _ => (getFallbackQuote env, 1)
    | Except.ok parsedQuote =>
      if checkQuoteUniqueness parsedQuote.shlok env.recentU1 then (parsedQuote, 1)
      else ((generateQuoteWithAIRetry env).1, 1 + (generateQuoteWithAIRetry env).2)

/-- All four mandatory fields of a record are non-empty. -/
def wellFormedQuote (q : AIGeneratedQuote) : Prop :=
  q.shlok ≠ "" ∧ q.meaning_hindi ≠ "" ∧ q.meaning_english ≠ "" ∧ q.source ≠ ""

theorem getFallbackQuote_wellFormed (env : AIEnv) :
    wellFormedQuote (getFallbackQuote env) ∧
    (getFallbackQuote env).shlok ∈ fallbackQuotes.map (fun q => q.shlok) := by
  obtain ⟨q, hq, heq⟩ := getFallbackQuote_shape env
  obtain ⟨h1, h2, h3, h4⟩ := fallbackQuotes_fields_ne_empty q hq
  rw [heq]
  exact ⟨⟨h1, h2, h3, h4⟩, List.mem_map.mpr ⟨q, hq, rfl⟩⟩

/-! ## C10: category overwrite on the fallback path -/

/-- A concrete environment in which the balanced category (peace) has no
surviving fallback entry: the three peace entries are excluded by the
recency filter, so the selected entry is curated under karma, yet its
returned category is peace. -/
def c10Env : AIEnv :=
  { hasApiKey := false, resp1 := none, resp2 := none,
    recentU1 := some [], recentU2 := some [],
    recentF := some ["वसुधैव", "शान्ति", "सर्वे भवन्तु"],
    catHist := some [some "karma", some "wisdom", some "devotion", some "yoga",
      some "truth", some "dharma", some "meditation"],
    rPick := 0 }

/-- C10: every record leaving the fallback path carries the balancer's
least-used category, and in the concrete environment c10Env the selected
entry's curated category (karma) differs from the category stamped on the
returned record (peace). -/
theorem C10_fallback_category_overwrite :
    (∀ env : AIEnv,
      (getFallbackQuote env).category = some (getLeastUsedCategory env.catHist)) ∧
    (getFallbackQuote c10Env).shlok = "कर्मण्येवाधिकारस्ते मा फलेषु कदाचन" ∧
    (getFallbackQuote c10Env).category = some "peace" ∧
    (fallbackQuotes.find? (fun q => q.shlok == "कर्मण्येवाधिकारस्ते मा फलेषु कदाचन")).map
      (fun q => q.category) = some (some "karma") := by
  refine ⟨fun env => rfl, by decide, by decide, by decide⟩

/-! ## C4: fallback completeness -/

/-- A structured response whose primary-text field is a single space: it is
truthy, so the validation of parseAIResponse accepts it, and the subsequent
trim returns the empty string. -/
def c4Env : AIEnv :=
  { hasApiKey := true,
    resp1 := some "\x7b\"shlok\": \" \", \"meaning_hindi\": \"b\", \"meaning_english\": \"c\", \"source\": \"d\"\x7d",
    resp2 := none, recentU1 := some [], recentU2 := some [], recentF := some [],
    catHist := some [], rPick := 0 }

/-- C4 counterexample: the claim asserts that for every behavior of the
completion capability the generator returns a record with all four mandatory
fields non-empty.  With the response of c4Env the capability succeeds, the
whitespace-only primary text passes the pre-trim truthiness validation, and
the generator returns a record whose primary text is empty. -/
theorem C4_fallback_completeness_cex :
    (generateQuoteWithAI c4Env).1.shlok = "" := by rfl

/-- C4 amended: whenever the first completion attempt fails (missing key,
failed or empty call, or output rejected by the parser) — in particular when
the capability always fails — the generator returns a fallback-table record
with all four mandatory fields non-empty; no error ever reaches the caller
(the embedding is a total function, mirroring the catch-all branches).  The
non-emptiness guarantee does not extend to successfully parsed responses
with whitespace-only field values, which trim to the empty string. -/
theorem C4_fallback_completeness_amended (env : AIEnv)
    (h : env.hasApiKey = false ∨ env.resp1 = none ∨
      ∃ s e, env.resp1 = some s ∧ parseAIResponse s = Except.error e) :
    wellFormedQuote (generateQuoteWithAI env).1 ∧
    (generateQuoteWithAI env).1.shlok ∈ fallbackQuotes.map (fun q => q.shlok) := by
  have hfb := getFallbackQuote_wellFormed env
  rcases h with h | h | ⟨s, e, hs, hp⟩
  · simpa [generateQuoteWithAI, h] using hfb
  · by_cases hk : env.hasApiKey <;> simpa [generateQuoteWithAI, h, hk] using hfb
  · by_cases hk : env.hasApiKey <;> simpa [generateQuoteWithAI, hs, hp, hk] using hfb

/-- Environment in which every completion call fails. -/
def c4AllFailEnv : AIEnv :=
  { hasApiKey := true, resp1 := none, resp2 := none, recentU1 := some [],
    recentU2 := some [], recentF := some [], catHist := some [], rPick := 0 }

theorem C4_fallback_completeness_witness :
    wellFormedQuote (generateQuoteWithAI c4AllFailEnv).1 ∧
    (generateQuoteWithAI c4AllFailEnv).1.shlok ∈ fallbackQuotes.map (fun q => q.shlok) :=
  C4_fallback_completeness_amended c4AllFailEnv (Or.inr (Or.inl rfl))

/-! ## C5: uniqueness retry bound -/

theorem generateQuoteWithAIRetry_calls_le_one (env : AIEnv) :
    (generateQuoteWithAIRetry env).2 ≤ 1 := by
  unfold generateQuoteWithAIRetry
  split
  · exact Nat.zero_le 1
  · split
    · exact le_refl 1
    · split
      · exact le_refl 1
      · split <;> exact le_refl 1

/-- C5: one invocation of the generation pipeline makes at most two
completion calls; when the first candidate parses but fails the uniqueness
check, exactly one retry happens (the result is the retry's result and the
call count grows by one); and when the retry's candidate also fails the
uniqueness check, the static fallback table is used with exactly two
completion calls in total and no third attempt. -/
theorem C5_retry_bound :
    (∀ env : AIEnv, (generateQuoteWithAI env).2 ≤ 2) ∧
    (∀ (env : AIEnv) (s : String) (p : AIGeneratedQuote),
      env.hasApiKey = true → env.resp1 = some s → parseAIResponse s = Except.ok p →
      checkQuoteUniqueness p.shlok env.recentU1 = false →
      generateQuoteWithAI env =
        ((generateQuoteWithAIRetry env).1, 1 + (generateQuoteWithAIRetry env).2)) ∧
    (∀ (env : AIEnv) (s : String) (p : AIGeneratedQuote) (s2 : String)
        (p2 : AIGeneratedQuote),
      env.hasApiKey = true → env.resp1 = some s → parseAIResponse s = Except.ok p →
      checkQuoteUniqueness p.shlok env.recentU1 = false →
      env.resp2 = some s2 → parseAIResponse s2 = Except.ok p2 →
      checkQuoteUniqueness p2.shlok env.recentU2 = false →
      generateQuoteWithAI env = (getFallbackQuote env, 2)) := by
  refine ⟨?_, ?_, ?_⟩
  · intro env
    have hr := generateQuoteWithAIRetry_calls_le_one env
    unfold generateQuoteWithAI
    split
    · simp
    · split
      · simp
      · split
        · simp
        · split
          · simp
          · simp
            omega
  · intro env s p hk hs hp hu
    simp [generateQuoteWithAI, hk, hs, hp, hu]
  · intro env s p s2 p2 hk hs hp hu hs2 hp2 hu2
    simp [generateQuoteWithAI, generateQuoteWithAIRetry, hk, hs, hp, hu, hs2, hp2, hu2]

/-- A concrete run hitting the double-non-unique path: both candidates occur
verbatim in the recent history. -/
def c5Env : AIEnv :=
  { hasApiKey := true,
    resp1 := some "Shlok: abc\nMeaning Hindi: b\nMeaning English: c\nSource: d",
    resp2 := some "Shlok: xyz\nMeaning Hindi: b\nMeaning English: c\nSource: d",
    recentU1 := some ["abc"], recentU2 := some ["xyz"],
    recentF := some [], catHist := some [], rPick := 0 }

theorem C5_retry_bound_witness :
    generateQuoteWithAI c5Env = (getFallbackQuote c5Env, 2) :=
  C5_retry_bound.2.2 c5Env
    "Shlok: abc\nMeaning Hindi: b\nMeaning English: c\nSource: d"
    ⟨"abc", "b", "c", "d", none⟩
    "Shlok: xyz\nMeaning Hindi: b\nMeaning English: c\nSource: d"
    ⟨"xyz", "b", "c", "d", none⟩
    rfl rfl (by rfl) (by decide) rfl (by rfl) (by decide)

/-! ## Store model and the daily publication coordinator (quoteService.ts)

The store is a record of the two tables; store-assigned identifiers are
modelled by the counter nextId.  Store reads are computed from the state;
possible failures of each write, and of the initial read, are injected by
the coordinator environment, since in the source they arise from the store
or from a concurrent publisher rather than from the local computation. -/

structure Quote where
  id : Nat
  shlok : String
  meaning_hindi : String
  meaning_english : String
  source : String
  category : Option String
  created_at : String
deriving DecidableEq

structure DailyLog where
  quote_id : Nat
  date : String
  created_at : String
deriving DecidableEq

structure DB where
  quotes : List Quote
  daily_logs : List DailyLog
  nextId : Nat
deriving DecidableEq

structure StoreErr where
  code : Option String
  message : String
deriving DecidableEq

/-- Lexicographic comparison of code points, modelling the JavaScript
less-than operator on strings, which the source applies to fixed-width ISO
date strings. -/
def charListLt : List Char → List Char → Bool
  | [], [] => false
  | [], _ :: _ => true
  | _ :: _, [] => false
  | a :: as, b :: bs =>
    if a.toNat < b.toNat then true
    else if b.toNat < a.toNat then false
    else charListLt as bs

def jsStrLt (a b : String) : Bool := charListLt a.toList b.toList

theorem charListLt_self (l : List Char) : charListLt l l = false := by
  induction l with
  | nil => rfl
  | cons c t ih => simp [charListLt, ih]

theorem jsStrLt_self (s : String) : jsStrLt s s = false := charListLt_self s.toList

/-- Well-formed store state: at most one publication per date (the date
uniqueness constraint of daily_logs), every publication references an
existing content record, and every stored identifier is below the counter. -/
def WF (db : DB) : Prop :=
  (db.daily_logs.map (fun l => l.date)).Nodup ∧
  (∀ l ∈ db.daily_logs, ∃ q ∈ db.quotes, q.id = l.quote_id) ∧
  (∀ q ∈ db.quotes, q.id < db.nextId)

/-- Embedding of getQuoteByDate: a future date (lexicographic comparison of
ISO date strings, as in the source) is rejected before any store access; a
failed store read yields null, as the source returns null on a query error;
otherwise the publication row for the date is joined with its record. -/
def getQuoteByDate (db : DB) (fetchOk : Bool) (today date : String) : Option Quote :=
  if jsStrLt today date then none
  else if !fetchOk then none
  else (db.daily_logs.find? (fun l => l.date == date)).bind
    (fun l => db.quotes.find? (fun q => q.id == l.quote_id))

/-- Embedding of getTodayQuote. -/
def getTodayQuote (db : DB) (fetchOk : Bool) (today : String) : Option Quote :=
  getQuoteByDate db fetchOk today today

/-- Embedding of getQuoteById: fetch the single publication row referencing
the record, then return the joined record only when its date is strictly in
the past (the source blocks both today and future dates on this path). -/
def getQuoteById (db : DB) (today : String) (id : Nat) : Option Quote :=
  (db.daily_logs.find? (fun l => l.quote_id == id)).bind
    (fun l => if jsStrLt l.date today then db.quotes.find? (fun q => q.id == l.quote_id)
              else none)

/-- Timestamp normalization of get6AMISTTimestamp: six in the morning IST is
half past midnight UTC of the same calendar day.  The Date arithmetic of the
source is collapsed to this canonical rendering; no verified claim inspects
the timestamp value. -/
def get6AMISTTimestamp (dateString : String) : String :=
  dateString ++ "T00:30:00.000Z"

def mkQuote (id : Nat) (a : AIGeneratedQuote) (ts : String) : Quote :=
  ⟨id, a.shlok, a.meaning_hindi, a.meaning_english, a.source, a.category, ts⟩

/-- Insert into quotes with a store-assigned identifier. -/
def insertQuote (db : DB) (a : AIGeneratedQuote) (ts : String) : DB :=
  { db with quotes := db.quotes ++ [mkQuote db.nextId a ts], nextId := db.nextId + 1 }

/-- The upsert of logQuoteForToday with conflict target date: update the
existing row for the date when present, insert otherwise. -/
def upsertDailyLog (db : DB) (quoteId : Nat) (date ts : String) : DB :=
  if db.daily_logs.any (fun l => l.date == date) then
    { db with daily_logs := db.daily_logs.map (fun l =>
        if l.date == date then { l with quote_id := quoteId, created_at := ts } else l) }
  else
    { db with daily_logs := db.daily_logs ++ [⟨quoteId, date, ts⟩] }

/-- Delete-by-identifier on quotes. -/
def deleteQuote (db : DB) (id : Nat) : DB :=
  { db with quotes := db.quotes.filter (fun q => !(q.id == id)) }

/-- The duplicate-conflict test generateAndStoreQuote applies to an error
raised by logQuoteForToday: message containing duplicate, or code 23505. -/
def isDupErr (e : StoreErr) : Bool :=
  jsIncludes e.message "duplicate" || (e.code == some "23505")

/-- Environment of one publishToday call: whether the initial read of
today's publication succeeds at the store (a failed read is swallowed into
null inside getQuoteByDate), the records produced by the one or two
generator calls, the outcome of each insert and of each upsert (none is
success, some the raised store error), and the publication observed by the
re-fetch after a date conflict, written by the concurrent publisher that
caused the conflict. -/
structure CoordEnv where
  fetch0 : Bool
  gen1 : AIGeneratedQuote
  gen2 : AIGeneratedQuote
  insert1 : Option StoreErr
  insert2 : Option StoreErr
  log1 : Option StoreErr
  log2 : Option StoreErr
  existing1 : Option Quote
  existing2 : Option Quote

/-- Result of one publishToday call: the returned record or propagated
error, the final store state, and how many generator calls and insert
attempts were made. -/
structure CoordOutcome where
  result : Except StoreErr Quote
  db : DB
  aiCalls : Nat
  insertAttempts : Nat

/-- Embedding of generateAndStoreQuote of quoteService.ts: re-check today's
publication and short-circuit; generate; insert the record; on a unique-
constraint violation of the shlok column regenerate once and re-insert; link
the record to today via the upsert; on a duplicate conflict there re-fetch
the existing publication, delete the record created by this call and return
the existing one; propagate any other failure. -/
def generateAndStoreQuote (db : DB) (today : String) (env : CoordEnv) : CoordOutcome :=
  match getTodayQuote db env.fetch0 today with
  | some todayQuote => ⟨Except.ok todayQuote, db, 0, 0⟩
  | none =>
    let sixAMIST := get6AMISTTimestamp today
    match env.insert1 with
    | some insertError =>
      if (insertError.code == some "23505") &&
          jsIncludes insertError.message "unique_shlok" then
        match env.insert2 with
        | some retryError =>
          ⟨Except.error ⟨none, "Failed to insert quote after retry: " ++ retryError.message⟩,
            db, 2, 2⟩
        | none =>
          let retryQuote := mkQuote db.nextId env.gen2 sixAMIST
          let db1 := insertQuote db env.gen2 sixAMIST
          match env.log2 with
          | none =>
            ⟨Except.ok retryQuote, upsertDailyLog db1 retryQuote.id today sixAMIST, 2, 2⟩
          | some logError =>
            if isDupErr logError then
              match env.existing2 with
              | some existingQuote =>
                ⟨Except.ok existingQuote, deleteQuote db1 retryQuote.id, 2, 2⟩
              | none => ⟨Except.error logError, db1, 2, 2⟩
            else ⟨Except.error logError, db1, 2, 2⟩
      else
        ⟨Except.error ⟨none, "Failed to insert quote: " ++ insertError.message⟩, db, 1, 1⟩
    | none =>
      let newQuote := mkQuote db.nextId env.gen1 sixAMIST
      let db1 := insertQuote db env.gen1 sixAMIST
      match env.log1 with
      | none =>
        ⟨Except.ok newQuote, upsertDailyLog db1 newQuote.id today sixAMIST, 1, 1⟩
      | some logError =>
        if isDupErr logError then
          match env.existing1 with
          | some existingQuote =>
            ⟨Except.ok existingQuote, deleteQuote db1 newQuote.id, 1, 1⟩
          | none => ⟨Except.error logError, db1, 1, 1⟩
        else ⟨Except.error logError, db1, 1, 1⟩

theorem find_log_of_nodup (logs : List DailyLog) (date : String) (l : DailyLog)
    (hnd : (logs.map (fun x => x.date)).Nodup) (hm : l ∈ logs) (hd : l.date = date) :
    logs.find? (fun x => x.date == date) = some l := by
  induction logs with
  | nil => cases hm
  | cons h t ih =>
    rw [List.map_cons, List.nodup_cons] at hnd
    by_cases hh : h.date = date
    · have hlh : l = h := by
        rcases List.mem_cons.mp hm with rfl | hmt
        · rfl
        · exact absurd (List.mem_map.mpr ⟨l, hmt, by rw [hd, hh]⟩) hnd.1
      rw [List.find?_cons_of_pos _ (by simp [hh])]
      exact congrArg some hlh.symm
    · have hmt : l ∈ t := by
        rcases List.mem_cons.mp hm with rfl | hmt
        · exact absurd hd hh
        · exact hmt
      rw [List.find?_cons_of_neg _ (by simp [hh])]
      exact ih hnd.2 hmt

theorem filter_date_len (logs : List DailyLog) (date : String) (l : DailyLog)
    (hnd : (logs.map (fun x => x.date)).Nodup) (hm : l ∈ logs) (hd : l.date = date) :
    (logs.filter (fun x => x.date == date)).length = 1 := by
  induction logs with
  | nil => cases hm
  | cons h t ih =>
    rw [List.map_cons, List.nodup_cons] at hnd
    by_cases hh : h.date = date
    · rw [List.filter_cons_of_pos (by simp [hh])]
      have hnil : t.filter (fun x => x.date == date) = [] := by
        rw [List.filter_eq_nil_iff]
        intro x hx
        simp only [beq_iff_eq]
        intro hxd
        exact absurd (List.mem_map.mpr ⟨x, hx, by rw [hxd, hh]⟩) hnd.1
      rw [hnil]
      rfl
    · rw [List.filter_cons_of_neg (by simp [hh])]
      have hmt : l ∈ t := by
        rcases List.mem_cons.mp hm with rfl | hmt
        · exact absurd hd hh
        · exact hmt
      exact ih hnd.2 hmt

/-- C1: when today already has a publication and the initial read succeeds,
publishToday returns the published record (its identifier is the one the
publication references), changes nothing, generates nothing and attempts no
insert; a second sequential call returns the same record, and exactly one
publication for today exists afterwards. -/
theorem C1_publishToday_idempotent (db : DB) (today : String) (env env2 : CoordEnv)
    (l : DailyLog) (hwf : WF db) (hmem : l ∈ db.daily_logs) (hdate : l.date = today)
    (hf : env.fetch0 = true) (hf2 : env2.fetch0 = true) :
    ∃ q : Quote,
      (generateAndStoreQuote db today env).result = Except.ok q ∧
      q.id = l.quote_id ∧
      (generateAndStoreQuote db today env).db = db ∧
      (generateAndStoreQuote db today env).aiCalls = 0 ∧
      (generateAndStoreQuote db today env).insertAttempts = 0 ∧
      (generateAndStoreQuote (generateAndStoreQuote db today env).db today env2).result =
        Except.ok q ∧
      (generateAndStoreQuote (generateAndStoreQuote db today env).db today env2).db = db ∧
      (((generateAndStoreQuote (generateAndStoreQuote db today env).db today
          env2).db.daily_logs.filter (fun x => x.date == today)).length = 1) := by
  obtain ⟨hnd, href, hbound⟩ := hwf
  have hfind : db.daily_logs.find? (fun x => x.date == today) = some l :=
    find_log_of_nodup _ _ _ hnd hmem hdate
  obtain ⟨q0, hq0mem, hq0id⟩ := href l hmem
  have hqsome : (db.quotes.find? (fun q => q.id == l.quote_id)).isSome := by
    rw [List.find?_isSome]
    exact ⟨q0, hq0mem, by simp [hq0id]⟩
  obtain ⟨q, hq⟩ := Option.isSome_iff_exists.mp hqsome
  have hqid : q.id = l.quote_id := by
    have := List.find?_some hq
    simpa using this
  have htoday : getTodayQuote db true today = some q := by
    unfold getTodayQuote getQuoteByDate
    rw [jsStrLt_self]
    simp [hfind, hq]
  have hrun : generateAndStoreQuote db today env = ⟨Except.ok q, db, 0, 0⟩ := by
    unfold generateAndStoreQuote
    rw [hf, htoday]
  have hrun2 : generateAndStoreQuote db today env2 = ⟨Except.ok q, db, 0, 0⟩ := by
    unfold generateAndStoreQuote
    rw [hf2, htoday]
  refine ⟨q, ?_, hqid, ?_, ?_, ?_, ?_, ?_, ?_⟩ <;>
    simp only [hrun, hrun2]
  exact filter_date_len _ _ _ hnd hmem hdate

/-- Concrete store with one published day, and an environment whose external
calls all succeed. -/
def c1Db : DB :=
  { quotes := [⟨0, "a", "b", "c", "d", some "karma", "t"⟩],
    daily_logs := [⟨0, "2025-06-01", "t"⟩], nextId := 1 }

def c1Env : CoordEnv :=
  { fetch0 := true, gen1 := ⟨"x", "y", "z", "w", none⟩,
    gen2 := ⟨"x", "y", "z", "w", none⟩, insert1 := none, insert2 := none,
    log1 := none, log2 := none, existing1 := none, existing2 := none }

theorem C1_publishToday_idempotent_witness :
    ∃ q : Quote,
      (generateAndStoreQuote c1Db "2025-06-01" c1Env).result = Except.ok q ∧
      q.id = 0 ∧
      (generateAndStoreQuote c1Db "2025-06-01" c1Env).db = c1Db ∧
      (generateAndStoreQuote c1Db "2025-06-01" c1Env).aiCalls = 0 ∧
      (generateAndStoreQuote c1Db "2025-06-01" c1Env).insertAttempts = 0 ∧
      (generateAndStoreQuote (generateAndStoreQuote c1Db "2025-06-01" c1Env).db
        "2025-06-01" c1Env).result = Except.ok q ∧
      (generateAndStoreQuote (generateAndStoreQuote c1Db "2025-06-01" c1Env).db
        "2025-06-01" c1Env).db = c1Db ∧
      (((generateAndStoreQuote (generateAndStoreQuote c1Db "2025-06-01" c1Env).db
          "2025-06-01" c1Env).db.daily_logs.filter
            (fun x => x.date == "2025-06-01")).length = 1) :=
  C1_publishToday_idempotent c1Db "2025-06-01" c1Env c1Env ⟨0, "2025-06-01", "t"⟩
    ⟨by decide, by decide, by decide⟩ (by decide) rfl rfl rfl

/-- C3: date gating of the read paths.  A strictly future date is rejected
by the by-date read before any store access; the by-identifier read returns
a record only when its publication date is strictly in the past, so in
particular never a future one; and for a date not in the future that has a
publication in a well-formed store, the by-date read returns the referenced
record. -/
theorem C3_date_gating :
    (∀ (db : DB) (fetchOk : Bool) (today date : String), jsStrLt today date = true →
      getQuoteByDate db fetchOk today date = none) ∧
    (∀ (db : DB) (today : String) (id : Nat) (q : Quote),
      getQuoteById db today id = some q →
      ∃ l ∈ db.daily_logs, l.quote_id = id ∧ jsStrLt l.date today = true) ∧
    (∀ (db : DB) (today date : String) (l : DailyLog), WF db →
      jsStrLt today date = false →
      l ∈ db.daily_logs → l.date = date →
      ∃ q, getQuoteByDate db true today date = some q ∧ q.id = l.quote_id) := by
  refine ⟨?_, ?_, ?_⟩
  · intro db fetchOk today date h
    unfold getQuoteByDate
    rw [h]
    rfl
  · intro db today id q h
    unfold getQuoteById at h
    obtain ⟨l, hl, hbind⟩ := Option.bind_eq_some.mp h
    have hlid : l.quote_id = id := by
      have := List.find?_some hl
      simpa using this
    split at hbind
    · exact ⟨l, List.mem_of_find?_eq_some hl, hlid, by assumption⟩
    · cases hbind
  · intro db today date l hwf hlt hmem hdate
    obtain ⟨hnd, href, _⟩ := hwf
    have hfind : db.daily_logs.find? (fun x => x.date == date) = some l :=
      find_log_of_nodup _ _ _ hnd hmem hdate
    obtain ⟨q0, hq0mem, hq0id⟩ := href l hmem
    have hqsome : (db.quotes.find? (fun q => q.id == l.quote_id)).isSome := by
      rw [List.find?_isSome]
      exact ⟨q0, hq0mem, by simp [hq0id]⟩
    obtain ⟨q, hq⟩ := Option.isSome_iff_exists.mp hqsome
    have hqid : q.id = l.quote_id := by
      have := List.find?_some hq
      simpa using this
    refine ⟨q, ?_, hqid⟩
    unfold getQuoteByDate
    rw [hlt]
    simp [hfind, hq]

def c3Db : DB :=
  { quotes := [⟨0, "a", "b", "c", "d", none, "t"⟩],
    daily_logs := [⟨0, "2025-06-01", "t"⟩], nextId := 1 }

theorem C3_date_gating_witness :
    getQuoteByDate c3Db true "2025-06-02" "2025-06-03" = none ∧
    (∃ l ∈ c3Db.daily_logs, l.quote_id = 0 ∧ jsStrLt l.date "2025-06-02" = true) ∧
    (∃ q, getQuoteByDate c3Db true "2025-06-02" "2025-06-01" = some q ∧ q.id = 0) :=
  ⟨C3_date_gating.1 c3Db true "2025-06-02" "2025-06-03" (by decide),
   C3_date_gating.2.1 c3Db "2025-06-02" 0 ⟨0, "a", "b", "c", "d", none, "t"⟩ (by decide),
   C3_date_gating.2.2 c3Db "2025-06-02" "2025-06-01" ⟨0, "2025-06-01", "t"⟩
     ⟨by decide, by decide, by decide⟩ (by decide) (by decide) rfl⟩

/-- C2: when no publication for today is observed, the insert succeeds, and
the linking upsert raises a duplicate-shaped error while the re-fetch finds
the now-existing publication, publishToday returns that existing record and
deletes the content record it created in this call, leaving the store's
tables as they were; an error that is not duplicate-shaped propagates to the
caller unchanged. -/
theorem C2_date_conflict_resolution (db : DB) (today : String) (env : CoordEnv)
    (hbound : ∀ q ∈ db.quotes, q.id < db.nextId)
    (hnone : getTodayQuote db env.fetch0 today = none)
    (hins : env.insert1 = none) :
    (∀ e ex, env.log1 = some e → isDupErr e = true → env.existing1 = some ex →
      (generateAndStoreQuote db today env).result = Except.ok ex ∧
      (generateAndStoreQuote db today env).db.quotes = db.quotes ∧
      (generateAndStoreQuote db today env).db.daily_logs = db.daily_logs) ∧
    (∀ e, env.log1 = some e → isDupErr e = false →
      (generateAndStoreQuote db today env).result = Except.error e) := by
  have hrestore :
      (deleteQuote (insertQuote db env.gen1 (get6AMISTTimestamp today)) db.nextId).quotes =
        db.quotes := by
    unfold deleteQuote insertQuote mkQuote
    dsimp only
    rw [List.filter_append]
    have h1 : db.quotes.filter (fun q => !(q.id == db.nextId)) = db.quotes := by
      rw [List.filter_eq_self]
      intro q hq
      simp only [Bool.not_eq_true', beq_eq_false_iff_ne, ne_eq]
      exact Nat.ne_of_lt (hbound q hq)
    rw [h1]
    simp
  constructor
  · intro e ex hlog hdup hex
    refine ⟨?_, ?_, ?_⟩
    · simp [generateAndStoreQuote, hnone, hins, hlog, hdup, hex]
    · simp only [generateAndStoreQuote, hnone, hins, hlog]
      simp only [hdup, hex]
      simp
      exact hrestore
    · simp [generateAndStoreQuote, hnone, hins, hlog, hdup, hex, deleteQuote,
        insertQuote]
  · intro e hlog hdup
    simp [generateAndStoreQuote, hnone, hins, hlog, hdup]

def c2Db : DB := { quotes := [], daily_logs := [], nextId := 0 }

def c2EnvDup : CoordEnv :=
  { fetch0 := true, gen1 := ⟨"x", "y", "z", "w", none⟩,
    gen2 := ⟨"x", "y", "z", "w", none⟩, insert1 := none, insert2 := none,
    log1 := some ⟨some "23505", "duplicate key value violates unique constraint"⟩,
    log2 := none, existing1 := some ⟨7, "p", "q", "r", "s", none, "t"⟩,
    existing2 := none }

def c2EnvOther : CoordEnv :=
  { fetch0 := true, gen1 := ⟨"x", "y", "z", "w", none⟩,
    gen2 := ⟨"x", "y", "z", "w", none⟩, insert1 := none, insert2 := none,
    log1 := some ⟨none, "connection reset"⟩, log2 := none,
    existing1 := none, existing2 := none }

theorem C2_date_conflict_resolution_witness :
    ((generateAndStoreQuote c2Db "2025-06-01" c2EnvDup).result =
       Except.ok ⟨7, "p", "q", "r", "s", none, "t"⟩ ∧
     (generateAndStoreQuote c2Db "2025-06-01" c2EnvDup).db.quotes = c2Db.quotes ∧
     (generateAndStoreQuote c2Db "2025-06-01" c2EnvDup).db.daily_logs = c2Db.daily_logs) ∧
    (generateAndStoreQuote c2Db "2025-06-01" c2EnvOther).result =
      Except.error ⟨none, "connection reset"⟩ :=
  ⟨(C2_date_conflict_resolution c2Db "2025-06-01" c2EnvDup (by decide) (by decide)
      rfl).1 ⟨some "23505", "duplicate key value violates unique constraint"⟩
      ⟨7, "p", "q", "r", "s", none, "t"⟩ rfl (by decide) rfl,
   (C2_date_conflict_resolution c2Db "2025-06-01" c2EnvOther (by decide) (by decide)
      rfl).2 ⟨none, "connection reset"⟩ rfl (by decide)⟩

/-- C9: when the first insert fails with a unique-constraint violation on
the shlok column, exactly one replacement is generated and the insert is
re-attempted exactly once; when that second insert also fails, the failure
propagates to the caller wrapped in the retry message, no further generation
or insert attempt happens, and the store — in particular the publication
table — is unchanged by the call. -/
theorem C9_shlok_conflict_retry (db : DB) (today : String) (env : CoordEnv)
    (e1 e2 : StoreErr)
    (hnone : getTodayQuote db env.fetch0 today = none)
    (h1 : env.insert1 = some e1) (hcode : e1.code = some "23505")
    (hmsg : jsIncludes e1.message "unique_shlok" = true)
    (h2 : env.insert2 = some e2) :
    (generateAndStoreQuote db today env).result =
      Except.error ⟨none, "Failed to insert quote after retry: " ++ e2.message⟩ ∧
    (generateAndStoreQuote db today env).aiCalls = 2 ∧
    (generateAndStoreQuote db today env).insertAttempts = 2 ∧
    (generateAndStoreQuote db today env).db = db := by
  refine ⟨?_, ?_, ?_, ?_⟩ <;>
    simp [generateAndStoreQuote, hnone, h1, h2, hcode, hmsg]

def c9Env : CoordEnv :=
  { fetch0 := true, gen1 := ⟨"x", "y", "z", "w", none⟩,
    gen2 := ⟨"x2", "y", "z", "w", none⟩,
    insert1 := some ⟨some "23505", "duplicate key value violates unique_shlok"⟩,
    insert2 := some ⟨some "23505", "duplicate key value violates unique_shlok"⟩,
    log1 := none, log2 := none, existing1 := none, existing2 := none }

theorem C9_shlok_conflict_retry_witness :
    (generateAndStoreQuote c2Db "2025-06-01" c9Env).result =
      Except.error ⟨none,
        "Failed to insert quote after retry: duplicate key value violates unique_shlok"⟩ ∧
    (generateAndStoreQuote c2Db "2025-06-01" c9Env).aiCalls = 2 ∧
    (generateAndStoreQuote c2Db "2025-06-01" c9Env).insertAttempts = 2 ∧
    (generateAndStoreQuote c2Db "2025-06-01" c9Env).db = c2Db :=
  C9_shlok_conflict_retry c2Db "2025-06-01" c9Env
    ⟨some "23505", "duplicate key value violates unique_shlok"⟩
    ⟨some "23505", "duplicate key value violates unique_shlok"⟩
    (by decide) rfl rfl (by decide) rfl

end Shrutam
